import Mathlib

/-!
# Genesis-state construction of eth2-testnet-genesis (Deneb command)

A shallow embedding of `state.go` (`setupState`) and `deneb.go`
(`DenebGenesisCmd.Run`).  Byte strings of fixed width (roots, versions, keys,
addresses) are read as natural numbers, `uint64` values are natural numbers
with the wrap-around written out where the Go code can overflow, Go `error`
returns and runtime panics are the two kinds of `GoError`.

Code that the two files call but do not contain (the zrnt/ztyp state views,
go-ethereum blocks, the RPC client, the file system, and the helpers of this
package that live in other files) is collected in the record `World`; every
theorem that is not an evaluation at a concrete input holds for all worlds.
-/

namespace Eth2TestnetGenesis

/-! ## Basic types -/

/-- A 32-byte value (`common.Bytes32`, `[32]byte`), read as a number. -/
abbrev Bytes32 := Nat

/-- A 32-byte hash, `common.Root`. -/
abbrev Root := Bytes32

/-- A 4-byte fork version, `common.Version`. -/
abbrev Version := Nat

/-- An unsigned 64-bit amount, `common.Gwei`. -/
abbrev Gwei := Nat

/-- An unsigned 64-bit epoch number, `common.Epoch`. -/
abbrev Epoch := Nat

/-- An unsigned 64-bit unix time, `common.Timestamp`. -/
abbrev Timestamp := Nat

/-- A 48-byte BLS public key. -/
abbrev BLSPubkey := Nat

/-- A 20-byte execution-layer address. -/
abbrev Eth1Address := Nat

/-- An index into the validator registry. -/
abbrev ValidatorIndex := Nat

/-- A byte string. -/
abbrev Bytes := List Nat

/-- The number of values of a Go `uint64`. -/
def U64 : Nat := 2 ^ 64

/-- The number of values of a `uint256.Int`. -/
def U256 : Nat := 2 ^ 256

/-- The constant `common.GENESIS_EPOCH`. -/
def GENESIS_EPOCH : Epoch := 0

/-- The constant `common.FAR_FUTURE_EPOCH`, the not-yet-eligible sentinel. -/
def FAR_FUTURE_EPOCH : Epoch := 2 ^ 64 - 1

/-- The constant `common.MAX_EXTRA_DATA_BYTES` of zrnt. -/
def MAX_EXTRA_DATA_BYTES : Nat := 32

/-- What a Go call can end with other than its result: a returned `error`
(one constructor per error the two files build themselves, `returned` for an
error handed on unchanged) or a runtime panic. -/
inductive GoError where
  /-- An error of a callee, returned as it is (`return err`). -/
  | returned (e : String)
  /-- The text is "failed to read file: %w". -/
  | failedToReadFile (e : String)
  /-- The text is "failed to unmarshal JSON: %w". -/
  | failedToUnmarshalJSON (e : String)
  /-- The text is "failed to parse eth1 block: %w". -/
  | failedToParseEth1Block (e : String)
  /-- The text is "A fatal error occurred creating the ETH client %s". -/
  | creatingETHClient (e : String)
  /-- The text is "A fatal error occurred getting the ETH block %s". -/
  | gettingETHBlock (e : String)
  /-- The text is "extra data is %d bytes, max is %d". -/
  | extraDataTooLong (len max : Nat)
  /-- The text is "failed to encode tx %d: %w". -/
  | failedToEncodeTx (i : Nat) (e : String)
  /-- The text is "execution-layer Block has missing blob-gas-used field". -/
  | missingBlobGasUsed
  /-- The text is "execution-layer Block has missing excess-blob-gas field". -/
  | missingExcessBlobGas
  /-- The text is "expected 0 deposit index in state, got %d". -/
  | depositIndexNotZero (i : Nat)
  /-- The text is "failed to compute sync committee indices: %v". -/
  | syncCommitteeIndices (e : String)
  /-- A runtime panic: the Go program stops without returning. -/
  | panic (what : String)
  deriving DecidableEq, Repr

/-- Results of Go calls that return `(value, error)`. -/
abbrev Go (α : Type) := Except GoError α

/-- The state-container variants the type switches of `setupState` tell apart.
`phase0` is what their `default` branch handles. -/
inductive StateVariant where
  | phase0
  | altair
  | bellatrix
  | capella
  | deneb
  | electra
  deriving DecidableEq, Repr

/-- The fields of `common.Spec` that the two files (and the modelled library
calls) read. -/
structure Spec where
  GENESIS_DELAY : Timestamp
  MIN_GENESIS_TIME : Timestamp
  GENESIS_FORK_VERSION : Version
  ALTAIR_FORK_VERSION : Version
  BELLATRIX_FORK_VERSION : Version
  CAPELLA_FORK_VERSION : Version
  DENEB_FORK_VERSION : Version
  ELECTRA_FORK_VERSION : Version
  MAX_EFFECTIVE_BALANCE : Gwei
  EFFECTIVE_BALANCE_INCREMENT : Gwei
  MIN_GENESIS_ACTIVE_VALIDATOR_COUNT : Nat
  VALIDATOR_REGISTRY_LIMIT : Nat
  EPOCHS_PER_HISTORICAL_VECTOR : Nat
  deriving DecidableEq, Repr

/-- The record `common.Fork`. -/
structure Fork where
  PreviousVersion : Version
  CurrentVersion : Version
  Epoch : Epoch
  deriving DecidableEq, Repr

/-- The record `common.Eth1Data`. -/
structure Eth1Data where
  DepositRoot : Root
  DepositCount : Nat
  BlockHash : Root
  deriving DecidableEq, Repr

/-- The record `common.BeaconBlockHeader`; `setupState` fills only `BodyRoot`. -/
structure BeaconBlockHeader where
  Slot : Nat
  ProposerIndex : ValidatorIndex
  ParentRoot : Root
  StateRoot : Root
  BodyRoot : Root
  deriving DecidableEq, Repr

/-- The record `phase0.KickstartValidatorData`. -/
structure KickstartValidatorData where
  Pubkey : BLSPubkey
  WithdrawalCredentials : Root
  Balance : Gwei
  deriving DecidableEq, Repr

/-- A registry entry, `phase0.Validator`. -/
structure Validator where
  Pubkey : BLSPubkey
  WithdrawalCredentials : Root
  EffectiveBalance : Gwei
  Slashed : Bool
  ActivationEligibilityEpoch : Epoch
  ActivationEpoch : Epoch
  ExitEpoch : Epoch
  WithdrawableEpoch : Epoch
  deriving DecidableEq, Repr

/-- The record `common.SyncCommittee`: the member keys and their aggregate. -/
structure SyncCommittee where
  Pubkeys : List BLSPubkey
  AggregatePubkey : BLSPubkey
  deriving DecidableEq, Repr

/-- The record `deneb.ExecutionPayloadHeader`. -/
structure ExecutionPayloadHeader where
  ParentHash : Root
  FeeRecipient : Eth1Address
  StateRoot : Root
  ReceiptsRoot : Root
  LogsBloom : Bytes
  PrevRandao : Root
  BlockNumber : Nat
  GasLimit : Nat
  GasUsed : Nat
  Timestamp : Timestamp
  ExtraData : Bytes
  BaseFeePerGas : Nat
  BlockHash : Root
  TransactionsRoot : Root
  WithdrawalsRoot : Root
  BlobGasUsed : Nat
  ExcessBlobGas : Nat
  deriving DecidableEq, Repr

/-- The value `&deneb.ExecutionPayloadHeader{}`: every field at its zero value. -/
def ExecutionPayloadHeader.empty : ExecutionPayloadHeader :=
  { ParentHash := 0, FeeRecipient := 0, StateRoot := 0, ReceiptsRoot := 0, LogsBloom := [],
    PrevRandao := 0, BlockNumber := 0, GasLimit := 0, GasUsed := 0, Timestamp := 0,
    ExtraData := [], BaseFeePerGas := 0, BlockHash := 0, TransactionsRoot := 0,
    WithdrawalsRoot := 0, BlobGasUsed := 0, ExcessBlobGas := 0 }

/-- The content of a beacon state view, as far as genesis construction writes
it.  `variant` is the dynamic type of the view. -/
structure BeaconState where
  variant : StateVariant
  genesisTime : Timestamp
  genesisValidatorsRoot : Root
  fork : Fork
  latestBlockHeader : BeaconBlockHeader
  eth1Data : Eth1Data
  eth1DepositIndex : Nat
  validators : List Validator
  balances : List Gwei
  randaoMixes : List Root
  currentSyncCommittee : Option SyncCommittee
  nextSyncCommittee : Option SyncCommittee
  latestExecutionPayloadHeader : ExecutionPayloadHeader
  deriving DecidableEq, Repr

/-! ## Execution-layer inputs -/

/-- A withdrawal of an execution block, `types.Withdrawal`. -/
structure ELWithdrawal where
  Index : Nat
  Validator : Nat
  Address : Eth1Address
  Amount : Nat
  deriving DecidableEq, Repr

/-- A withdrawal record of the consensus layer, `common.Withdrawal`. -/
structure Withdrawal where
  Index : Nat
  ValidatorIndex : ValidatorIndex
  Address : Eth1Address
  Amount : Gwei
  deriving DecidableEq, Repr

deriving instance DecidableEq for Except

/-- A transaction of an execution block, seen through the one method `Run`
calls on it: `MarshalBinary` gives its bytes or an error. -/
structure Transaction where
  MarshalBinary : Except String Bytes
  deriving DecidableEq, Repr

/-- A go-ethereum `types.Block`, seen through the accessors `Run` calls.
Pointer-valued accessors that can be nil are options; `BaseFee` and
`Difficulty` are `big.Int` values, hence integers of any size and sign. -/
structure Block where
  Hash : Bytes32
  ParentHash : Bytes32
  Coinbase : Eth1Address
  Root : Bytes32
  ReceiptHash : Bytes32
  Bloom : Bytes
  Difficulty : Int
  NumberU64 : Nat
  GasLimit : Nat
  GasUsed : Nat
  Time : Nat
  Extra : Bytes
  BaseFee : Option Int
  Withdrawals : Option (List ELWithdrawal)
  Transactions : List Transaction
  BlobGasUsed : Option Nat
  ExcessBlobGas : Option Nat
  deriving DecidableEq, Repr

/-- A go-ethereum `core.Genesis`, seen through what `Run` reads: its
`Timestamp` field and the block `ToBlock` derives from it. -/
structure Genesis where
  Timestamp : Nat
  ToBlock : Block
  deriving DecidableEq, Repr

/-- The receiver of `Run`: the command-line options. -/
structure DenebGenesisCmd where
  SpecOptions : String
  Eth1Config : String
  Eth1BlockHash : Root
  Eth1BlockTimestamp : Timestamp
  EthMatchGenesisTime : Bool
  MnemonicsSrcFilePath : String
  ValidatorsSrcFilePath : String
  StateOutputPath : String
  TranchesDir : String
  EthWithdrawalAddress : Eth1Address
  ShadowForkEth1RPC : String
  ShadowForkBlockFile : String
  EffectiveBalance : Nat
  deriving DecidableEq, Repr

/-- Everything the two files call without containing it.  The results of
calls that reach outside the process are given as functions of the arguments
of the call. -/
structure World where
  /-- The call `g.SpecOptions.Spec()`. -/
  SpecOptionsSpec : String → Except String Spec
  /-- The helper `loadEth1GenesisConf` of this package. -/
  loadEth1GenesisConf : String → Except String Genesis
  /-- The call `os.ReadFile`. -/
  ReadFile : String → Except String Bytes
  /-- The call `json.Unmarshal` into `JSONData`, giving its `Result` field. -/
  Unmarshal : Bytes → Except String Bytes
  /-- The helper `ParseEthBlock` of this package. -/
  ParseEthBlock : Bytes → Except String Block
  /-- The helper `bigIntToBytes32` of this package. -/
  bigIntToBytes32 : Int → Bytes32
  /-- The call `ethclient.Dial`; a client is named by a number. -/
  Dial : String → Except String Nat
  /-- The call `client.BlockNumber`: Go returns the number and the error both. -/
  BlockNumber : Nat → Nat × Option String
  /-- The call `client.BlockByNumber`. -/
  BlockByNumber : Nat → Nat → Except String Block
  /-- The call `os.MkdirAll`: `some` is the error. -/
  MkdirAll : String → Option String
  /-- The helper `loadValidatorKeys` of this package. -/
  loadValidatorKeys : Spec → String → String → String → Eth1Address → Gwei →
    Except String (List KickstartValidatorData)
  /-- The call `os.OpenFile`: `some` is the error. -/
  OpenFile : String → Option String
  /-- The call `state.Serialize`: the bytes written, or the error. -/
  Serialize : BeaconState → Except String Bytes
  /-- The root `phase0.NewDepositRootsView().HashTreeRoot(hFn)`. -/
  depositRootsHTR : Root
  /-- The root of `BeaconBlockBodyType(spec).New()` of the fork of the variant. -/
  emptyBodyHTR : Spec → StateVariant → Root
  /-- The root `vals.HashTreeRoot(hFn)` of a validator registry. -/
  validatorsHTR : List Validator → Root
  /-- The root `clWithdrawals.HashTreeRoot(spec, hFn)`. -/
  withdrawalsHTR : Spec → List Withdrawal → Root
  /-- The root `clTransactions.HashTreeRoot(spec, hFn)`. -/
  transactionsHTR : Spec → List Bytes → Root
  /-- The root `common.PayloadTransactionsType(spec).DefaultNode().MerkleRoot(hFn)`. -/
  transactionsDefaultRoot : Spec → Root
  /-- The helper `ComputeSyncCommitteeIndices` of this package. -/
  ComputeSyncCommitteeIndices : Spec → BeaconState → Epoch → List ValidatorIndex → Gwei →
    Except String (List ValidatorIndex)
  /-- The helper `IndicesToSyncCommittee` of this package, with the public keys
  of the registry as its key cache. -/
  IndicesToSyncCommittee : List ValidatorIndex → List BLSPubkey → Except String SyncCommittee
  /-- The call `syncCommittee.View(spec)`. -/
  SyncCommitteeView : Spec → SyncCommittee → Except String SyncCommittee

/-- Hands an error of a callee on unchanged: `if err != nil { return err }`. -/
def orReturn {α : Type} : Except String α → Go α
  | .ok a => .ok a
  | .error e => .error (.returned e)

/-- The same for a call that returns only an error; `some` is the error. -/
def orReturnErr : Option String → Go Unit
  | none => .ok ()
  | some e => .error (.returned e)

/-- Hands an error of a callee on wrapped in a message of the caller. -/
def orWrap {α : Type} (wrap : String → GoError) : Except String α → Go α
  | .ok a => .ok a
  | .error e => .error (wrap e)

/-! ## The state view operations of zrnt that `setupState` and `Run` call

These are library calls.  A setter writes one field; on a view whose backing
tree is well formed it returns no error. -/

/-- The view `NewBeaconStateView(spec)` of a fork: the default value of the
state container, with empty lists and zero fields. -/
def NewBeaconStateView (variant : StateVariant) : BeaconState :=
  { variant := variant, genesisTime := 0, genesisValidatorsRoot := 0,
    fork := { PreviousVersion := 0, CurrentVersion := 0, Epoch := 0 },
    latestBlockHeader :=
      { Slot := 0, ProposerIndex := 0, ParentRoot := 0, StateRoot := 0, BodyRoot := 0 },
    eth1Data := { DepositRoot := 0, DepositCount := 0, BlockHash := 0 },
    eth1DepositIndex := 0, validators := [], balances := [], randaoMixes := [],
    currentSyncCommittee := none, nextSyncCommittee := none,
    latestExecutionPayloadHeader := ExecutionPayloadHeader.empty }

/-- The setter `state.SetGenesisTime`. -/
def BeaconState.SetGenesisTime (state : BeaconState) (t : Timestamp) : Go BeaconState :=
  .ok { state with genesisTime := t }

/-- The setter `state.SetFork`. -/
def BeaconState.SetFork (state : BeaconState) (f : Fork) : Go BeaconState :=
  .ok { state with fork := f }

/-- The setter `state.SetEth1Data`. -/
def BeaconState.SetEth1Data (state : BeaconState) (d : Eth1Data) : Go BeaconState :=
  .ok { state with eth1Data := d }

/-- The getter `state.Eth1DepositIndex`. -/
def BeaconState.Eth1DepositIndex (state : BeaconState) : Go Nat :=
  .ok state.eth1DepositIndex

/-- The setter `state.SetLatestBlockHeader`. -/
def BeaconState.SetLatestBlockHeader (state : BeaconState) (h : BeaconBlockHeader) :
    Go BeaconState :=
  .ok { state with latestBlockHeader := h }

/-- The call `state.SeedRandao(spec, seed)`: every mix of the historical vector
becomes the seed. -/
def BeaconState.SeedRandao (state : BeaconState) (spec : Spec) (seed : Root) : Go BeaconState :=
  .ok { state with randaoMixes := List.replicate spec.EPOCHS_PER_HISTORICAL_VECTOR seed }

/-- The clamping rule of `AddValidator`: the balance rounded down to a
multiple of the increment, capped at the maximum. -/
def clampEffectiveBalance (spec : Spec) (balance : Gwei) : Gwei :=
  let effBalance := balance - balance % spec.EFFECTIVE_BALANCE_INCREMENT
  if effBalance > spec.MAX_EFFECTIVE_BALANCE then spec.MAX_EFFECTIVE_BALANCE else effBalance

/-- The call `state.AddValidator(spec, pub, withdrawalCreds, balance)`: appends
a registry entry with the clamped effective balance and all four epochs at
`FAR_FUTURE_EPOCH`, and appends the balance.  The remainder by a zero
increment panics; a full registry is an error. -/
def BeaconState.AddValidator (state : BeaconState) (spec : Spec) (pub : BLSPubkey)
    (withdrawalCreds : Root) (balance : Gwei) : Go BeaconState :=
  if spec.EFFECTIVE_BALANCE_INCREMENT = 0 then
    .error (.panic "integer divide by zero")
  else if spec.VALIDATOR_REGISTRY_LIMIT ≤ state.validators.length then
    .error (.returned "list length is already at the limit")
  else
    let validatorRaw : Validator :=
      { Pubkey := pub,
        WithdrawalCredentials := withdrawalCreds,
        EffectiveBalance := clampEffectiveBalance spec balance,
        Slashed := false,
        ActivationEligibilityEpoch := FAR_FUTURE_EPOCH,
        ActivationEpoch := FAR_FUTURE_EPOCH,
        ExitEpoch := FAR_FUTURE_EPOCH,
        WithdrawableEpoch := FAR_FUTURE_EPOCH }
    .ok { state with
      validators := state.validators ++ [validatorRaw],
      balances := state.balances ++ [balance] }

/-- The getter `state.Validators()`. -/
def BeaconState.Validators (state : BeaconState) : Go (List Validator) :=
  .ok state.validators

/-- The setter `state.SetGenesisValidatorsRoot`. -/
def BeaconState.SetGenesisValidatorsRoot (state : BeaconState) (r : Root) : Go BeaconState :=
  .ok { state with genesisValidatorsRoot := r }

/-- The setter `st.SetCurrentSyncCommittee`. -/
def BeaconState.SetCurrentSyncCommittee (state : BeaconState) (c : SyncCommittee) :
    Go BeaconState :=
  .ok { state with currentSyncCommittee := some c }

/-- The setter `st.SetNextSyncCommittee`. -/
def BeaconState.SetNextSyncCommittee (state : BeaconState) (c : SyncCommittee) :
    Go BeaconState :=
  .ok { state with nextSyncCommittee := some c }

/-- The setter `state.SetLatestExecutionPayloadHeader`. -/
def BeaconState.SetLatestExecutionPayloadHeader (state : BeaconState)
    (h : ExecutionPayloadHeader) : Go BeaconState :=
  .ok { state with latestExecutionPayloadHeader := h }

/-- The getter `state.GenesisTime()`. -/
def BeaconState.GenesisTime (state : BeaconState) : Go Timestamp :=
  .ok state.genesisTime

/-- The type assertion `state.(common.SyncCommitteeBeaconState)`: the views
from altair on have the sync committee setters. -/
def StateVariant.isSyncCommitteeBeaconState : StateVariant → Bool
  | .phase0 => false
  | _ => true

/-- The result of `common.ActiveIndices(common.LoadBoundedIndices(vals), epoch)`:
the indices of the entries with `ActivationEpoch ≤ epoch < ExitEpoch`, in
registry order. -/
def ActiveIndices (vals : List Validator) (epoch : Epoch) : List ValidatorIndex :=
  (vals.enum.filter fun p => decide (p.2.ActivationEpoch ≤ epoch ∧ epoch < p.2.ExitEpoch)).map
    fun p => p.1

/-! ## `state.go` -/

/-- Lines 22-43 of `setupState`: the type switch that picks `forkVersion` and
`previousForkVersion`, returned in this order. -/
def forkVersions (spec : Spec) : StateVariant → Version × Version
  | .electra => (spec.ELECTRA_FORK_VERSION, spec.DENEB_FORK_VERSION)
  | .deneb => (spec.DENEB_FORK_VERSION, spec.CAPELLA_FORK_VERSION)
  | .capella => (spec.CAPELLA_FORK_VERSION, spec.BELLATRIX_FORK_VERSION)
  | .bellatrix => (spec.BELLATRIX_FORK_VERSION, spec.ALTAIR_FORK_VERSION)
  | .altair => (spec.ALTAIR_FORK_VERSION, spec.GENESIS_FORK_VERSION)
  | .phase0 => (spec.GENESIS_FORK_VERSION, spec.GENESIS_FORK_VERSION)

/-- Lines 44-47 of `setupState`: the `common.Fork` handed to `SetFork`. -/
def genesisFork (spec : Spec) (variant : StateVariant) : Fork :=
  { PreviousVersion := (forkVersions spec variant).2,
    CurrentVersion := (forkVersions spec variant).1,
    Epoch := GENESIS_EPOCH }

/-- Lines 95-100 of `setupState`: the loop that inserts the validators. -/
def addValidators (spec : Spec) (effectiveBalance : Gwei) :
    List KickstartValidatorData → BeaconState → Go BeaconState
  | [], state => .ok state
  | v :: rest, state =>
    let v := { v with Balance := effectiveBalance }
    match state.AddValidator spec v.Pubkey v.WithdrawalCredentials v.Balance with
    | .error err => .error err
    | .ok state => addValidators spec effectiveBalance rest state

/-- Lines 111-130 of `setupState`: the body of the activation loop, on the
registry entry `val`. -/
def processActivation (spec : Spec) (effectiveBalance : Gwei) (val : Validator) : Validator :=
  let val := if effectiveBalance > 0 then { val with EffectiveBalance := effectiveBalance } else val
  let vEff := val.EffectiveBalance
  let maxEffectiveBalance :=
    if effectiveBalance > 0 then effectiveBalance else spec.MAX_EFFECTIVE_BALANCE
  if vEff = maxEffectiveBalance then
    { val with ActivationEligibilityEpoch := GENESIS_EPOCH, ActivationEpoch := GENESIS_EPOCH }
  else val

/-- Lines 106-131 of `setupState`: the loop `for i := 0; i < len(validators); i++`,
here from index `i` for `n` more rounds.  `vals.Validator(i)` is an error
when the registry has no entry `i`. -/
def processActivations (spec : Spec) (effectiveBalance : Gwei) :
    Nat → Nat → List Validator → Go (List Validator)
  | 0, _, vals => .ok vals
  | n + 1, i, vals =>
    match vals[i]? with
    | none => .error (.returned "validator index out of range")
    | some val =>
      processActivations spec effectiveBalance n (i + 1)
        (vals.set i (processActivation spec effectiveBalance val))

/-- Lines 135-164 of `setupState`: the sync committee of the views that have
one, the same for the current and the next period. -/
def setupSyncCommittee (w : World) (spec : Spec) (state : BeaconState) (vals : List Validator)
    (effectiveBalance : Gwei) : Go BeaconState :=
  if state.variant.isSyncCommitteeBeaconState then do
    let active := ActiveIndices vals GENESIS_EPOCH
    let indices ← orWrap GoError.syncCommitteeIndices
      (w.ComputeSyncCommitteeIndices spec state GENESIS_EPOCH active effectiveBalance)
    let pubs := vals.map fun v => v.Pubkey
    let syncCommittee ← orReturn (w.IndicesToSyncCommittee indices pubs)
    let syncCommitteeView ← orReturn (w.SyncCommitteeView spec syncCommittee)
    let state ← state.SetCurrentSyncCommittee syncCommitteeView
    state.SetNextSyncCommittee syncCommitteeView
  else
    .ok state

/-- The function `setupState` of `state.go`. -/
def setupState (w : World) (spec : Spec) (state : BeaconState) (eth1Time : Timestamp)
    (eth1BlockHash : Root) (validators : List KickstartValidatorData)
    (effectiveBalance : Gwei) : Go BeaconState := do
  let state ← state.SetGenesisTime ((eth1Time + spec.GENESIS_DELAY) % U64)
  let state ← state.SetFork (genesisFork spec state.variant)
  -- Empty deposit-tree
  let eth1Dat : Eth1Data :=
    { DepositRoot := w.depositRootsHTR, DepositCount := 0, BlockHash := eth1BlockHash }
  let state ← state.SetEth1Data eth1Dat
  -- Leave the deposit index to 0. No deposits happened.
  let i ← state.Eth1DepositIndex
  if i ≠ 0 then
    .error (.depositIndexNotZero i)
  else do
    let latestHeader : BeaconBlockHeader :=
      { Slot := 0, ProposerIndex := 0, ParentRoot := 0, StateRoot := 0,
        BodyRoot := w.emptyBodyHTR spec state.variant }
    let state ← state.SetLatestBlockHeader latestHeader
    -- Seed RANDAO with Eth1 entropy
    let state ← state.SeedRandao spec eth1BlockHash
    let state ← addValidators spec effectiveBalance validators state
    let vals ← state.Validators
    -- Process activations
    let vals ← processActivations spec effectiveBalance validators.length 0 vals
    let state := { state with validators := vals }
    let state ← state.SetGenesisValidatorsRoot (w.validatorsHTR vals)
    setupSyncCommittee w spec state vals effectiveBalance

/-! ## `deneb.go` -/

/-- The method `Default` of `deneb.go`, at the current time `now`. -/
def DenebGenesisCmd.Default (specOptions : String) (now : Timestamp) : DenebGenesisCmd :=
  { SpecOptions := specOptions,
    Eth1Config := "engine_genesis.json",
    Eth1BlockHash := 0,
    Eth1BlockTimestamp := now,
    EthMatchGenesisTime := false,
    MnemonicsSrcFilePath := "mnemonics.yaml",
    ValidatorsSrcFilePath := "",
    StateOutputPath := "genesis.ssz",
    TranchesDir := "tranches",
    EthWithdrawalAddress := 0,
    ShadowForkEth1RPC := "",
    ShadowForkBlockFile := "",
    EffectiveBalance := 0 }

/-- The call `uint256.FromBig` of holiman/uint256: for nil it returns nil and
no overflow; otherwise the integer reduced modulo `2^256` (the two's
complement of a negative one) and whether its magnitude needs more than 256
bits. -/
def FromBig (b : Option Int) : Option Nat × Bool :=
  match b with
  | none => (none, false)
  | some b => (some (b % (U256 : Int)).toNat, decide (U256 ≤ b.natAbs))

/-- The local variables of `Run` that lines 104-227 assign. -/
structure RunLocals where
  eth1BlockHash : Root
  execHeader : Option ExecutionPayloadHeader
  eth1Block : Option Block
  prevRandaoMix : Bytes32
  deriving DecidableEq, Repr

/-- Lines 84-90 of `Run`: the eth1 genesis config, loaded when a path is set. -/
def loadEth1Genesis (w : World) (g : DenebGenesisCmd) : Go (Option Genesis) :=
  if g.Eth1Config ≠ "" then
    match w.loadEth1GenesisConf g.Eth1Config with
    | .error err => .error (.returned err)
    | .ok eth1Genesis => .ok (some eth1Genesis)
  else
    .ok none

/-- Lines 92-102 of `Run`: the value of `beaconGenesisTimestamp`. -/
def beaconGenesisTimestamp (g : DenebGenesisCmd) (spec : Spec) (eth1Genesis : Option Genesis) :
    Timestamp :=
  match g.EthMatchGenesisTime, eth1Genesis with
  | true, some eth1Genesis => eth1Genesis.Timestamp
  | _, _ =>
    if spec.MIN_GENESIS_TIME ≠ 0 then
      -- Set beaconchain genesis timestamp based on config genesis timestamp
      spec.MIN_GENESIS_TIME
    else
      g.Eth1BlockTimestamp

/-- Lines 104-159 of `Run`: where the execution block comes from.  The
variables start at their zero values (`eth1Block` and `execHeader` nil). -/
def loadEth1Block (w : World) (g : DenebGenesisCmd) (eth1Genesis : Option Genesis) :
    Go RunLocals :=
  if g.ShadowForkBlockFile ≠ "" then do
    -- Read the JSON file from disk
    let file ← orWrap GoError.failedToReadFile (w.ReadFile g.ShadowForkBlockFile)
    let resultData ← orWrap GoError.failedToUnmarshalJSON (w.Unmarshal file)
    let eth1Block ← orWrap GoError.failedToParseEth1Block (w.ParseEthBlock resultData)
    -- Convert and set the difficulty as the prevRandao field
    .ok { eth1BlockHash := 0, execHeader := none, eth1Block := some eth1Block,
          prevRandaoMix := w.bigIntToBytes32 eth1Block.Difficulty }
  else if g.ShadowForkEth1RPC ≠ "" then do
    let client ← orWrap GoError.creatingETHClient (w.Dial g.ShadowForkEth1RPC)
    -- Get the latest block; the error of BlockNumber is overwritten unread
    let blockNumberUint64 := (w.BlockNumber client).1
    let blockNumberBigint := blockNumberUint64
    let resultBlock ← orWrap GoError.gettingETHBlock (w.BlockByNumber client blockNumberBigint)
    .ok { eth1BlockHash := 0, execHeader := none, eth1Block := some resultBlock,
          prevRandaoMix := w.bigIntToBytes32 resultBlock.Difficulty }
  else if g.Eth1Config ≠ "" then
    -- Generate genesis block from the loaded config
    match eth1Genesis with
    | none => .error (.panic "invalid memory address or nil pointer dereference")
    | some eth1Genesis =>
      .ok { eth1BlockHash := 0, execHeader := none, eth1Block := some eth1Genesis.ToBlock,
            prevRandaoMix := 0 }
  else
    .ok { eth1BlockHash := g.Eth1BlockHash, execHeader := some ExecutionPayloadHeader.empty,
          eth1Block := none, prevRandaoMix := 0 }

/-- Lines 176-183 of `Run`: one withdrawal of the block as a `common.Withdrawal`. -/
def toCLWithdrawal (withdrawal : ELWithdrawal) : Withdrawal :=
  { Index := withdrawal.Index,
    ValidatorIndex := withdrawal.Validator,
    Address := withdrawal.Address,
    Amount := withdrawal.Amount }

/-- Lines 170-185 of `Run`: the value of `withdrawalsRoot`. -/
def withdrawalsRootOf (w : World) (spec : Spec) (eth1Block : Block) : Root :=
  match eth1Block.Withdrawals with
  | some withdrawals => w.withdrawalsHTR spec (withdrawals.map toCLWithdrawal)
  | none => 0

/-- Lines 192-198 of `Run`: the loop that encodes the transactions, at
index `i`. -/
def encodeTransactions : Nat → List Transaction → Go (List Bytes)
  | _, [] => .ok []
  | i, tx :: rest =>
    match tx.MarshalBinary with
    | .error err => .error (.failedToEncodeTx i err)
    | .ok txBytes =>
      match encodeTransactions (i + 1) rest with
      | .error err => .error err
      | .ok more => .ok (txBytes :: more)

/-- Lines 187-200 of `Run`: the value of `txsRoot`, which starts at the root
of the default (empty) transactions list. -/
def txsRootOf (w : World) (spec : Spec) (eth1Block : Block) : Go Root :=
  if eth1Block.Transactions.length > 0 then
    match encodeTransactions 0 eth1Block.Transactions with
    | .error err => .error err
    | .ok clTransactions => .ok (w.transactionsHTR spec clTransactions)
  else
    .ok (w.transactionsDefaultRoot spec)

/-- Lines 161-227 of `Run`: the checks on the block and the payload header.
Calling `Hash` on a nil block, and reading through a nil `baseFee`, panic. -/
def buildExecHeader (w : World) (spec : Spec) (locals : RunLocals) : Go RunLocals :=
  match locals.eth1Block with
  | none => .error (.panic "invalid memory address or nil pointer dereference")
  | some eth1Block =>
    let eth1BlockHash := eth1Block.Hash
    let extra := eth1Block.Extra
    if extra.length > MAX_EXTRA_DATA_BYTES then
      .error (.extraDataTooLong extra.length MAX_EXTRA_DATA_BYTES)
    else
      let baseFee := (FromBig eth1Block.BaseFee).1
      let withdrawalsRoot := withdrawalsRootOf w spec eth1Block
      match txsRootOf w spec eth1Block with
      | .error err => .error err
      | .ok txsRoot =>
        match eth1Block.BlobGasUsed with
        | none => .error .missingBlobGasUsed
        | some blobGasUsed =>
          match eth1Block.ExcessBlobGas with
          | none => .error .missingExcessBlobGas
          | some excessBlobGas =>
            match baseFee with
            | none => .error (.panic "invalid memory address or nil pointer dereference")
            | some baseFee =>
              let execHeader : ExecutionPayloadHeader :=
                { ParentHash := eth1Block.ParentHash,
                  FeeRecipient := eth1Block.Coinbase,
                  StateRoot := eth1Block.Root,
                  ReceiptsRoot := eth1Block.ReceiptHash,
                  LogsBloom := eth1Block.Bloom,
                  PrevRandao := locals.prevRandaoMix,
                  BlockNumber := eth1Block.NumberU64,
                  GasLimit := eth1Block.GasLimit,
                  GasUsed := eth1Block.GasUsed,
                  Timestamp := eth1Block.Time,
                  ExtraData := extra,
                  BaseFeePerGas := baseFee,
                  BlockHash := eth1BlockHash,
                  TransactionsRoot := txsRoot,
                  WithdrawalsRoot := withdrawalsRoot,
                  BlobGasUsed := blobGasUsed,
                  ExcessBlobGas := excessBlobGas }
              .ok { locals with eth1BlockHash := eth1BlockHash, execHeader := some execHeader }

/-- What a run that returns nil leaves behind: the state it built and the
bytes `Serialize` wrote to `StateOutputPath`. -/
structure RunOutput where
  state : BeaconState
  written : Bytes
  deriving DecidableEq, Repr

/-- Lines 229-271 of `Run`: validators, state, header, serialization. -/
def finishRun (w : World) (g : DenebGenesisCmd) (spec : Spec)
    (beaconGenesisTimestamp : Timestamp) (locals : RunLocals) : Go RunOutput := do
  orReturnErr (w.MkdirAll g.TranchesDir)
  let validators ← orReturn (w.loadValidatorKeys spec g.MnemonicsSrcFilePath
    g.ValidatorsSrcFilePath g.TranchesDir g.EthWithdrawalAddress g.EffectiveBalance)
  let state := NewBeaconStateView StateVariant.deneb
  let state ← setupState w spec state beaconGenesisTimestamp locals.eth1BlockHash validators
    g.EffectiveBalance
  match locals.execHeader with
  | none => .error (.panic "invalid memory address or nil pointer dereference")
  | some execHeader =>
    let state ← state.SetLatestExecutionPayloadHeader execHeader
    let _t ← state.GenesisTime
    orReturnErr (w.OpenFile g.StateOutputPath)
    let written ← orReturn (w.Serialize state)
    .ok { state := state, written := written }

/-- The method `Run` of `deneb.go`. -/
def Run (w : World) (g : DenebGenesisCmd) : Go RunOutput := do
  let spec ← orReturn (w.SpecOptionsSpec g.SpecOptions)
  -- Load the Eth1 block from the Eth1 genesis config
  let eth1Genesis ← loadEth1Genesis w g
  let beaconGenesisTimestamp := beaconGenesisTimestamp g spec eth1Genesis
  let locals ← loadEth1Block w g eth1Genesis
  let locals ← buildExecHeader w spec locals
  finishRun w g spec beaconGenesisTimestamp locals

/-! ## Concrete inputs

A small configuration, a block and a world with stand-ins for the
collaborators, for evaluating the definitions above. -/

/-- A configuration with mainnet balances and a genesis delay of one minute. -/
def sampleSpec : Spec :=
  { GENESIS_DELAY := 60,
    MIN_GENESIS_TIME := 0,
    GENESIS_FORK_VERSION := 10,
    ALTAIR_FORK_VERSION := 11,
    BELLATRIX_FORK_VERSION := 12,
    CAPELLA_FORK_VERSION := 13,
    DENEB_FORK_VERSION := 14,
    ELECTRA_FORK_VERSION := 15,
    MAX_EFFECTIVE_BALANCE := 32000000000,
    EFFECTIVE_BALANCE_INCREMENT := 1000000000,
    MIN_GENESIS_ACTIVE_VALIDATOR_COUNT := 1,
    VALIDATOR_REGISTRY_LIMIT := 1024,
    EPOCHS_PER_HISTORICAL_VECTOR := 2 }

/-- A Cancun block without transactions or withdrawals list entries. -/
def sampleBlock : Block :=
  { Hash := 777, ParentHash := 776, Coinbase := 5, Root := 6, ReceiptHash := 7, Bloom := [],
    Difficulty := 0, NumberU64 := 0, GasLimit := 30000000, GasUsed := 0, Time := 1000,
    Extra := [1, 2, 3], BaseFee := some 1000000000, Withdrawals := some [],
    Transactions := [], BlobGasUsed := some 0, ExcessBlobGas := some 0 }

/-- One validator with a deposit of 32 ETH. -/
def sampleValidator : KickstartValidatorData :=
  { Pubkey := 1, WithdrawalCredentials := 2, Balance := 32000000000 }

/-- A world in which every call succeeds: the genesis config and the RPC head
block are `sampleBlock`, the key sources hold `sampleValidator`, and the
roots are simple stand-ins that never give the zero root. -/
def sampleWorld : World :=
  { SpecOptionsSpec := fun _ => .ok sampleSpec,
    loadEth1GenesisConf := fun _ => .ok { Timestamp := 1000, ToBlock := sampleBlock },
    ReadFile := fun _ => .ok [],
    Unmarshal := fun b => .ok b,
    ParseEthBlock := fun _ => .ok sampleBlock,
    bigIntToBytes32 := fun d => d.toNat,
    Dial := fun _ => .ok 1,
    BlockNumber := fun _ => (0, none),
    BlockByNumber := fun _ _ => .ok sampleBlock,
    MkdirAll := fun _ => none,
    loadValidatorKeys := fun _ _ _ _ _ _ => .ok [sampleValidator],
    OpenFile := fun _ => none,
    Serialize := fun st => .ok [st.genesisTime, st.validators.length],
    depositRootsHTR := 99,
    emptyBodyHTR := fun _ _ => 98,
    validatorsHTR := fun vals => 1 + vals.length,
    withdrawalsHTR := fun _ ws => 1 + (ws.map fun x => x.Amount).sum,
    transactionsHTR := fun _ txs => 1 + txs.length,
    transactionsDefaultRoot := fun _ => 97,
    ComputeSyncCommitteeIndices := fun _ _ _ active _ => .ok active,
    IndicesToSyncCommittee := fun _ pubs => .ok { Pubkeys := pubs, AggregatePubkey := 0 },
    SyncCommitteeView := fun _ c => .ok c }


/-! ## Definitions used to state the theorems -/

/-- The registry entry `AddValidator` appends. -/
def addedValidator (spec : Spec) (pub : BLSPubkey) (creds : Root) (balance : Gwei) : Validator :=
  { Pubkey := pub, WithdrawalCredentials := creds,
    EffectiveBalance := clampEffectiveBalance spec balance, Slashed := false,
    ActivationEligibilityEpoch := FAR_FUTURE_EPOCH, ActivationEpoch := FAR_FUTURE_EPOCH,
    ExitEpoch := FAR_FUTURE_EPOCH, WithdrawableEpoch := FAR_FUTURE_EPOCH }

/-- The variant that comes right before a variant in the fork history
phase0, altair, bellatrix, capella, deneb, electra; the oldest has none. -/
def StateVariant.predecessor : StateVariant → Option StateVariant
  | .phase0 => none
  | .altair => some .phase0
  | .bellatrix => some .altair
  | .capella => some .bellatrix
  | .deneb => some .capella
  | .electra => some .deneb

/-- The errors that only the block checks of lines 161-207 of `Run` build. -/
def GoError.isBlockCheck : GoError → Bool
  | .extraDataTooLong _ _ => true
  | .failedToEncodeTx _ _ => true
  | .missingBlobGasUsed => true
  | .missingExcessBlobGas => true
  | _ => false


/-- The default options at time 5. -/
def defaultCmd : DenebGenesisCmd := DenebGenesisCmd.Default "minimal" 5

/-- The options that take the block from a captured-block file. -/
def fileCmd : DenebGenesisCmd := { defaultCmd with ShadowForkBlockFile := "block.json" }

/-- The options that take the block from a live RPC endpoint. -/
def rpcCmd : DenebGenesisCmd := { defaultCmd with ShadowForkEth1RPC := "http://el:8545" }

/-- The options with no captured-block file, no RPC endpoint and no eth1
genesis config: a block hash and a timestamp only. -/
def fallbackCmd : DenebGenesisCmd :=
  { defaultCmd with Eth1Config := "", Eth1BlockHash := 4242, Eth1BlockTimestamp := 1000 }

/-- The default options with the genesis-time-matching flag set. -/
def matchTimeCmd : DenebGenesisCmd := { defaultCmd with EthMatchGenesisTime := true }

/-- The world `sampleWorld` with the captured-block file holding the block `b`. -/
def worldWithFileBlock (b : Block) : World :=
  { sampleWorld with ParseEthBlock := fun _ => .ok b }

/-- Three withdrawals of an execution block. -/
def threeWithdrawals : List ELWithdrawal :=
  [{ Index := 0, Validator := 7, Address := 100, Amount := 5 },
   { Index := 1, Validator := 8, Address := 101, Amount := 6 },
   { Index := 2, Validator := 9, Address := 102, Amount := 7 }]

/-- The world `sampleWorld` with an RPC endpoint whose `eth_blockNumber`
call fails while its block fetch answers. -/
def worldBlockNumberFails : World :=
  { sampleWorld with BlockNumber := fun _ => (0, some "connection reset") }
/-! ## Facts about `setupState` -/

/-- A successful `AddValidator` appends one entry and one balance and leaves the
rest of the state as it was. -/
theorem AddValidator_ok {spec : Spec} {st st' : BeaconState} {pub : BLSPubkey} {creds : Root}
    {balance : Gwei} (h : st.AddValidator spec pub creds balance = .ok st') :
    st' = { st with
      validators := st.validators ++ [addedValidator spec pub creds balance],
      balances := st.balances ++ [balance] } := by
  unfold BeaconState.AddValidator at h
  split at h
  · cases h
  · split at h
    · cases h
    · simp only [Except.ok.injEq] at h
      rw [← h]; rfl

/-- A successful insertion loop appends one entry per input validator, in input
order, each with the override argument as its balance. -/
theorem addValidators_ok (spec : Spec) (eb : Gwei) :
    ∀ (vs : List KickstartValidatorData) (st st' : BeaconState),
      addValidators spec eb vs st = .ok st' →
      st' = { st with
        validators := st.validators ++
          vs.map (fun v => addedValidator spec v.Pubkey v.WithdrawalCredentials eb),
        balances := st.balances ++ List.replicate vs.length eb } := by
  intro vs
  induction vs with
  | nil =>
    intro st st' h
    simp only [addValidators, Except.ok.injEq] at h
    simp [← h]
  | cons v rest ih =>
    intro st st' h
    simp only [addValidators] at h
    split at h
    · cases h
    · rename_i st1 h1
      have e1 := AddValidator_ok h1
      have e2 := ih st1 st' h
      rw [e2, e1]
      simp [List.replicate_succ]

/-- A successful activation loop keeps the length of the registry and applies
the loop body to exactly the entries `i`, ..., `i + n - 1`. -/
theorem processActivations_ok (spec : Spec) (eb : Gwei) :
    ∀ (n i : Nat) (vals vals' : List Validator),
      processActivations spec eb n i vals = .ok vals' →
      vals'.length = vals.length ∧
      ∀ j, vals'[j]? =
        if i ≤ j ∧ j < i + n then (vals[j]?).map (processActivation spec eb) else vals[j]? := by
  intro n
  induction n with
  | zero =>
    intro i vals vals' h
    simp only [processActivations, Except.ok.injEq] at h
    subst h
    refine ⟨rfl, fun j => ?_⟩
    rw [if_neg (by omega)]
  | succ n ih =>
    intro i vals vals' h
    simp only [processActivations] at h
    split at h
    · cases h
    · rename_i val hval
      obtain ⟨hl, hj⟩ := ih _ _ _ h
      refine ⟨by simpa using hl, ?_⟩
      intro j
      rw [hj j, List.getElem?_set]
      by_cases hji : i = j
      · subst hji
        have hlt : i < vals.length := by
          rcases List.getElem?_eq_some_iff.mp hval with ⟨hlt, _⟩
          exact hlt
        simp [hval, hlt]
      · have h1 : ¬ (i + 1 ≤ j ∧ j < i + 1 + n) ↔ ¬ (i ≤ j ∧ j < i + (n + 1)) := by omega
        by_cases h2 : i + 1 ≤ j ∧ j < i + 1 + n
        · have h3 : i ≤ j ∧ j < i + (n + 1) := by omega
          simp [h2, h3, hji]
        · have h3 : ¬ (i ≤ j ∧ j < i + (n + 1)) := by omega
          simp [h2, h3, hji]

/-- Run over the whole registry, the activation loop maps the loop body over it. -/
theorem processActivations_all (spec : Spec) (eb : Gwei) (vals vals' : List Validator)
    (h : processActivations spec eb vals.length 0 vals = .ok vals') :
    vals' = vals.map (processActivation spec eb) := by
  obtain ⟨hl, hj⟩ := processActivations_ok spec eb _ _ _ _ h
  apply List.ext_getElem?
  intro j
  rw [hj j]
  by_cases hlt : j < vals.length
  · simp [hlt]
  · simp [hlt]
    simp at hlt
    simp [List.getElem?_eq_none hlt]


/-- The sync committee step writes the two committee fields only. -/
theorem setupSyncCommittee_ok {w : World} {spec : Spec} {st st' : BeaconState}
    {vals : List Validator} {eb : Gwei}
    (h : setupSyncCommittee w spec st vals eb = .ok st') :
    ∃ c n, st' = { st with currentSyncCommittee := c, nextSyncCommittee := n } := by
  unfold setupSyncCommittee at h
  split at h
  · simp only [bind, Except.bind] at h
    split at h
    · cases h
    · split at h
      · cases h
      · split at h
        · cases h
        · rename_i c _
          simp only [BeaconState.SetCurrentSyncCommittee, BeaconState.SetNextSyncCommittee,
            Except.ok.injEq] at h
          exact ⟨some c, some c, h.symm⟩
  · simp only [Except.ok.injEq] at h
    exact ⟨st.currentSyncCommittee, st.nextSyncCommittee, by rw [← h]⟩

/-- The shape of the state after a successful `setupState`. -/
theorem setupState_ok {w : World} {spec : Spec} {st st' : BeaconState} {t : Timestamp}
    {hash : Root} {vs : List KickstartValidatorData} {eb : Gwei}
    (h : setupState w spec st t hash vs eb = .ok st') :
    ∃ vals c n,
      processActivations spec eb vs.length 0
        (st.validators ++ vs.map (fun v => addedValidator spec v.Pubkey v.WithdrawalCredentials eb))
        = .ok vals ∧
      st' = { st with
        genesisTime := (t + spec.GENESIS_DELAY) % U64,
        fork := genesisFork spec st.variant,
        eth1Data := { DepositRoot := w.depositRootsHTR, DepositCount := 0, BlockHash := hash },
        latestBlockHeader := { Slot := 0, ProposerIndex := 0, ParentRoot := 0, StateRoot := 0,
                               BodyRoot := w.emptyBodyHTR spec st.variant },
        randaoMixes := List.replicate spec.EPOCHS_PER_HISTORICAL_VECTOR hash,
        validators := vals,
        balances := st.balances ++ List.replicate vs.length eb,
        genesisValidatorsRoot := w.validatorsHTR vals,
        currentSyncCommittee := c,
        nextSyncCommittee := n } := by
  unfold setupState at h
  simp only [BeaconState.SetGenesisTime, BeaconState.SetFork, BeaconState.SetEth1Data,
    BeaconState.Eth1DepositIndex, BeaconState.SetLatestBlockHeader, BeaconState.SeedRandao,
    BeaconState.Validators, BeaconState.SetGenesisValidatorsRoot, bind, Except.bind] at h
  split at h
  · cases h
  · split at h
    · cases h
    · rename_i st1 hadd
      have e1 := addValidators_ok spec eb _ _ _ hadd
      split at h
      · cases h
      · rename_i vals hact
        obtain ⟨c, n, e2⟩ := setupSyncCommittee_ok h
        refine ⟨vals, c, n, ?_, ?_⟩
        · rw [e1] at hact
          exact hact
        · rw [e2, e1]

/-- The insertion loop returns none of the block check errors. -/
theorem addValidators_error (spec : Spec) (eb : Gwei) :
    ∀ (vs : List KickstartValidatorData) (st : BeaconState) (e : GoError),
      addValidators spec eb vs st = .error e → e.isBlockCheck = false := by
  intro vs
  induction vs with
  | nil => intro st e h; simp [addValidators] at h
  | cons v rest ih =>
    intro st e h
    simp only [addValidators] at h
    split at h
    · rename_i err herr
      unfold BeaconState.AddValidator at herr
      split at herr
      · cases herr; cases h; rfl
      · split at herr
        · cases herr; cases h; rfl
        · cases herr
    · exact ih _ _ h

/-- The activation loop returns none of the block check errors. -/
theorem processActivations_error (spec : Spec) (eb : Gwei) :
    ∀ (n i : Nat) (vals : List Validator) (e : GoError),
      processActivations spec eb n i vals = .error e → e.isBlockCheck = false := by
  intro n
  induction n with
  | zero => intro i vals e h; simp [processActivations] at h
  | succ n ih =>
    intro i vals e h
    simp only [processActivations] at h
    split at h
    · cases h; rfl
    · exact ih _ _ _ h

/-- The sync committee step returns none of the block check errors. -/
theorem setupSyncCommittee_error {w : World} {spec : Spec} {st : BeaconState}
    {vals : List Validator} {eb : Gwei} {e : GoError}
    (h : setupSyncCommittee w spec st vals eb = .error e) : e.isBlockCheck = false := by
  unfold setupSyncCommittee at h
  split at h
  · simp only [bind, Except.bind] at h
    split at h
    · rename_i err herr
      unfold orWrap at herr
      split at herr
      · cases herr
      · cases herr; cases h; rfl
    · split at h
      · rename_i err herr
        unfold orReturn at herr
        split at herr
        · cases herr
        · cases herr; cases h; rfl
      · split at h
        · rename_i err herr
          unfold orReturn at herr
          split at herr
          · cases herr
          · cases herr; cases h; rfl
        · simp [BeaconState.SetCurrentSyncCommittee, BeaconState.SetNextSyncCommittee] at h
  · cases h

/-- The function `setupState` returns none of the block check errors. -/
theorem setupState_error {w : World} {spec : Spec} {st : BeaconState} {t : Timestamp}
    {hash : Root} {vs : List KickstartValidatorData} {eb : Gwei} {e : GoError}
    (h : setupState w spec st t hash vs eb = .error e) : e.isBlockCheck = false := by
  unfold setupState at h
  simp only [BeaconState.SetGenesisTime, BeaconState.SetFork, BeaconState.SetEth1Data,
    BeaconState.Eth1DepositIndex, BeaconState.SetLatestBlockHeader, BeaconState.SeedRandao,
    BeaconState.Validators, BeaconState.SetGenesisValidatorsRoot, bind, Except.bind] at h
  split at h
  · cases h; rfl
  · split at h
    · rename_i err herr
      cases h
      exact addValidators_error spec eb _ _ _ herr
    · split at h
      · rename_i err herr
        cases h
        exact processActivations_error spec eb _ _ _ _ herr
      · exact setupSyncCommittee_error h

/-- Lines 229-271 of `Run` return none of the block check errors. -/
theorem finishRun_error {w : World} {g : DenebGenesisCmd} {spec : Spec} {ts : Timestamp}
    {locals : RunLocals} {e : GoError}
    (h : finishRun w g spec ts locals = .error e) : e.isBlockCheck = false := by
  unfold finishRun at h
  simp only [bind, Except.bind] at h
  split at h
  · rename_i err herr
    unfold orReturnErr at herr
    split at herr
    · cases herr
    · cases herr; cases h; rfl
  · split at h
    · rename_i err herr
      unfold orReturn at herr
      split at herr
      · cases herr
      · cases herr; cases h; rfl
    · split at h
      · rename_i err herr
        cases h
        exact setupState_error herr
      · split at h
        · cases h; rfl
        · simp only [BeaconState.SetLatestExecutionPayloadHeader, BeaconState.GenesisTime] at h
          split at h
          · rename_i err herr
            unfold orReturnErr at herr
            split at herr
            · cases herr
            · cases herr; cases h; rfl
          · split at h
            · rename_i err herr
              unfold orReturn at herr
              split at herr
              · cases herr
              · cases herr; cases h; rfl
            · cases h

/-- The shape of the output of a run whose lines 229-271 succeed. -/
theorem finishRun_ok {w : World} {g : DenebGenesisCmd} {spec : Spec} {ts : Timestamp}
    {locals : RunLocals} {out : RunOutput}
    (h : finishRun w g spec ts locals = .ok out) :
    ∃ validators st execHeader,
      w.loadValidatorKeys spec g.MnemonicsSrcFilePath g.ValidatorsSrcFilePath g.TranchesDir
        g.EthWithdrawalAddress g.EffectiveBalance = .ok validators ∧
      setupState w spec (NewBeaconStateView StateVariant.deneb) ts locals.eth1BlockHash
        validators g.EffectiveBalance = .ok st ∧
      locals.execHeader = some execHeader ∧
      out.state = { st with latestExecutionPayloadHeader := execHeader } ∧
      w.Serialize out.state = .ok out.written := by
  unfold finishRun at h
  simp only [bind, Except.bind] at h
  split at h
  · cases h
  · split at h
    · cases h
    · rename_i validators hvals
      split at h
      · cases h
      · rename_i st hst
        split at h
        · cases h
        · rename_i execHeader hhdr
          simp only [BeaconState.SetLatestExecutionPayloadHeader, BeaconState.GenesisTime] at h
          split at h
          · cases h
          · split at h
            · cases h
            · rename_i written hser
              simp only [Except.ok.injEq] at h
              subst h
              refine ⟨validators, st, execHeader, ?_, hst, hhdr, rfl, ?_⟩
              · unfold orReturn at hvals
                split at hvals
                · rename_i a ha
                  simp only [Except.ok.injEq] at hvals
                  rw [ha, hvals]
                · cases hvals
              · unfold orReturn at hser
                split at hser
                · rename_i a ha
                  simp only [Except.ok.injEq] at hser
                  rw [ha, hser]
                · cases hser

/-- The insertion loop succeeds when the increment is not zero and the
registry has room for the validators. -/
theorem addValidators_succeeds (spec : Spec) (eb : Gwei)
    (hincr : spec.EFFECTIVE_BALANCE_INCREMENT ≠ 0) :
    ∀ (vs : List KickstartValidatorData) (st : BeaconState),
      st.validators.length + vs.length ≤ spec.VALIDATOR_REGISTRY_LIMIT →
      ∃ st', addValidators spec eb vs st = .ok st' := by
  intro vs
  induction vs with
  | nil => intro st _; exact ⟨st, rfl⟩
  | cons v rest ih =>
    intro st hroom
    simp only [List.length_cons] at hroom
    have hlt : ¬ spec.VALIDATOR_REGISTRY_LIMIT ≤ st.validators.length := by omega
    simp only [addValidators, BeaconState.AddValidator, hincr, hlt, if_false]
    apply ih
    simp only [List.length_append, List.length_singleton]
    omega

/-- The activation loop succeeds when the registry has the entries it visits. -/
theorem processActivations_succeeds (spec : Spec) (eb : Gwei) :
    ∀ (n i : Nat) (vals : List Validator), i + n ≤ vals.length →
      ∃ vals', processActivations spec eb n i vals = .ok vals' := by
  intro n
  induction n with
  | zero => intro i vals _; exact ⟨vals, rfl⟩
  | succ n ih =>
    intro i vals hlen
    have hlt : i < vals.length := by omega
    simp only [processActivations, List.getElem?_eq_getElem hlt]
    apply ih
    simp only [List.length_set]
    omega

/-- The function `setupState` returns a state, on a new state view, when the
increment is not zero, the registry has room for the validators and the sync
committee step succeeds. -/
theorem setupState_succeeds (w : World) (spec : Spec) (st : BeaconState) (t : Timestamp)
    (hash : Root) (vs : List KickstartValidatorData) (eb : Gwei)
    (hfresh : st.validators = []) (hidx : st.eth1DepositIndex = 0)
    (hincr : spec.EFFECTIVE_BALANCE_INCREMENT ≠ 0)
    (hroom : vs.length ≤ spec.VALIDATOR_REGISTRY_LIMIT)
    (hsync : ∀ st0 vals, ∃ st1, setupSyncCommittee w spec st0 vals eb = .ok st1) :
    ∃ st', setupState w spec st t hash vs eb = .ok st' := by
  unfold setupState
  simp only [BeaconState.SetGenesisTime, BeaconState.SetFork, BeaconState.SetEth1Data,
    BeaconState.Eth1DepositIndex, BeaconState.SetLatestBlockHeader, BeaconState.SeedRandao,
    BeaconState.Validators, BeaconState.SetGenesisValidatorsRoot, bind, Except.bind]
  rw [if_neg (by simp [hidx])]
  obtain ⟨st1, hadd⟩ := addValidators_succeeds spec eb hincr vs
    { st with
      genesisTime := (t + spec.GENESIS_DELAY) % U64,
      fork := genesisFork spec st.variant,
      eth1Data := { DepositRoot := w.depositRootsHTR, DepositCount := 0, BlockHash := hash },
      latestBlockHeader := { Slot := 0, ProposerIndex := 0, ParentRoot := 0, StateRoot := 0,
                             BodyRoot := w.emptyBodyHTR spec st.variant },
      randaoMixes := List.replicate spec.EPOCHS_PER_HISTORICAL_VECTOR hash }
    (by simp [hfresh]; exact hroom)
  rw [hadd]
  have hshape := addValidators_ok spec eb _ _ _ hadd
  have hlen : 0 + vs.length ≤ st1.validators.length := by
    rw [hshape]
    simp
  obtain ⟨vals, hact⟩ := processActivations_succeeds spec eb vs.length 0 st1.validators hlen
  simp only [hact]
  exact hsync _ _

/-- The loop body on an entry that comes from `AddValidator`: it is activated
if and only if its effective balance then equals the threshold. -/
theorem processActivation_spec (spec : Spec) (eb : Gwei) (val : Validator)
    (hfar : val.ActivationEligibilityEpoch = FAR_FUTURE_EPOCH ∧
      val.ActivationEpoch = FAR_FUTURE_EPOCH) :
    let val' := processActivation spec eb val
    ((val'.ActivationEligibilityEpoch = GENESIS_EPOCH ∧ val'.ActivationEpoch = GENESIS_EPOCH) ↔
      val'.EffectiveBalance = (if eb > 0 then eb else spec.MAX_EFFECTIVE_BALANCE)) ∧
    (val'.EffectiveBalance + 1 = (if eb > 0 then eb else spec.MAX_EFFECTIVE_BALANCE) →
      val'.ActivationEligibilityEpoch = FAR_FUTURE_EPOCH ∧
        val'.ActivationEpoch = FAR_FUTURE_EPOCH) := by
  obtain ⟨h1, h2⟩ := hfar
  have hne : FAR_FUTURE_EPOCH ≠ GENESIS_EPOCH := by decide
  simp only [processActivation]
  by_cases hpos : eb > 0
  · simp [hpos]
  · simp only [hpos, if_false]
    by_cases heq : val.EffectiveBalance = spec.MAX_EFFECTIVE_BALANCE
    · simp [heq]
    · simp only [heq, if_false, h1, h2, and_self, true_and, implies_true, and_true]
      simp [hne]

/-- C1: after a successful `setupState` on a state whose registry was empty,
a registry entry has both activation epochs at `GENESIS_EPOCH` if and only if
its effective balance equals the threshold (the override when positive, else
`MAX_EFFECTIVE_BALANCE`), and an entry one unit below the threshold has both
epochs at `FAR_FUTURE_EPOCH`. -/
theorem setupState_activation_iff_threshold (w : World) (spec : Spec) (st st' : BeaconState)
    (t : Timestamp) (hash : Root) (vs : List KickstartValidatorData) (eb : Gwei)
    (hfresh : st.validators = [])
    (h : setupState w spec st t hash vs eb = .ok st') :
    ∀ val ∈ st'.validators,
      ((val.ActivationEligibilityEpoch = GENESIS_EPOCH ∧ val.ActivationEpoch = GENESIS_EPOCH) ↔
        val.EffectiveBalance = (if eb > 0 then eb else spec.MAX_EFFECTIVE_BALANCE)) ∧
      (val.EffectiveBalance + 1 = (if eb > 0 then eb else spec.MAX_EFFECTIVE_BALANCE) →
        val.ActivationEligibilityEpoch = FAR_FUTURE_EPOCH ∧
          val.ActivationEpoch = FAR_FUTURE_EPOCH) := by
  obtain ⟨vals, c, n, hact, hst⟩ := setupState_ok h
  rw [hfresh, List.nil_append] at hact
  have hlen : vs.length =
      (vs.map (fun v => addedValidator spec v.Pubkey v.WithdrawalCredentials eb)).length := by
    simp
  rw [hlen] at hact
  have hvals := processActivations_all spec eb _ _ hact
  intro val hval
  rw [hst] at hval
  simp only [hvals, List.map_map, List.mem_map, Function.comp] at hval
  obtain ⟨v, _, rfl⟩ := hval
  exact processActivation_spec spec eb _ ⟨rfl, rfl⟩

/-- A witness for C1: with no override and a maximum of 1 the one validator has
effective balance 0, one unit below, and stays at the sentinel; with an
override of 32 ETH the one validator is activated. -/
theorem setupState_activation_iff_threshold_witness :
    (∃ st', setupState sampleWorld
        { sampleSpec with MAX_EFFECTIVE_BALANCE := 1, EFFECTIVE_BALANCE_INCREMENT := 1 }
        (NewBeaconStateView StateVariant.phase0) 1000 777 [sampleValidator] 0 = .ok st' ∧
      st'.validators.length = 1 ∧
      ∀ val ∈ st'.validators,
        ((val.ActivationEligibilityEpoch = GENESIS_EPOCH ∧
            val.ActivationEpoch = GENESIS_EPOCH) ↔
          val.EffectiveBalance = (if 0 > 0 then 0 else 1)) ∧
        (val.EffectiveBalance + 1 = (if 0 > 0 then 0 else 1) →
          val.ActivationEligibilityEpoch = FAR_FUTURE_EPOCH ∧
            val.ActivationEpoch = FAR_FUTURE_EPOCH)) ∧
    (∃ st', setupState sampleWorld sampleSpec (NewBeaconStateView StateVariant.deneb) 1000 777
        [sampleValidator] 32000000000 = .ok st' ∧
      st'.validators.length = 1 ∧
      ∀ val ∈ st'.validators,
        ((val.ActivationEligibilityEpoch = GENESIS_EPOCH ∧
            val.ActivationEpoch = GENESIS_EPOCH) ↔
          val.EffectiveBalance =
            (if 32000000000 > 0 then 32000000000 else sampleSpec.MAX_EFFECTIVE_BALANCE)) ∧
        (val.EffectiveBalance + 1 =
            (if 32000000000 > 0 then 32000000000 else sampleSpec.MAX_EFFECTIVE_BALANCE) →
          val.ActivationEligibilityEpoch = FAR_FUTURE_EPOCH ∧
            val.ActivationEpoch = FAR_FUTURE_EPOCH)) :=
  ⟨⟨_, rfl, rfl, setupState_activation_iff_threshold sampleWorld
      { sampleSpec with MAX_EFFECTIVE_BALANCE := 1, EFFECTIVE_BALANCE_INCREMENT := 1 }
      (NewBeaconStateView StateVariant.phase0) _ 1000 777 [sampleValidator] 0 rfl rfl⟩,
   ⟨_, rfl, rfl, setupState_activation_iff_threshold sampleWorld sampleSpec
      (NewBeaconStateView StateVariant.deneb) _ 1000 777 [sampleValidator] 32000000000
      rfl rfl⟩⟩

/-- What `setupState` stores for the validators, whatever the override: every
stored balance is the override argument itself, and every effective balance
is the override when it is positive and the clamping of the override (of
zero) otherwise.  The input balances are not read. -/
theorem setupState_balances (w : World) (spec : Spec) (st st' : BeaconState)
    (t : Timestamp) (hash : Root) (vs : List KickstartValidatorData) (eb : Gwei)
    (hfresh : st.validators = [])
    (h : setupState w spec st t hash vs eb = .ok st') :
    st'.balances = st.balances ++ List.replicate vs.length eb ∧
    st'.validators.map (fun v => v.EffectiveBalance) =
      List.replicate vs.length (if eb > 0 then eb else clampEffectiveBalance spec eb) ∧
    st'.validators.map (fun v => v.Pubkey) = vs.map (fun v => v.Pubkey) := by
  obtain ⟨vals, c, n, hact, hst⟩ := setupState_ok h
  rw [hfresh, List.nil_append] at hact
  have hlen : vs.length =
      (vs.map (fun v => addedValidator spec v.Pubkey v.WithdrawalCredentials eb)).length := by
    simp
  rw [hlen] at hact
  have hvals := processActivations_all spec eb _ _ hact
  subst hst
  subst hvals
  refine ⟨rfl, ?_, ?_⟩
  · simp only [List.map_map]
    rw [List.eq_replicate_iff]
    refine ⟨by simp, ?_⟩
    intro b hb
    simp only [List.mem_map, Function.comp] at hb
    obtain ⟨v, _, rfl⟩ := hb
    simp only [processActivation, addedValidator]
    by_cases hpos : eb > 0
    · simp only [hpos, if_true]
    · simp only [hpos, if_false]
      split <;> rfl
  · simp only [List.map_map]
    apply List.map_congr_left
    intro v _
    simp only [Function.comp, processActivation, addedValidator]
    split <;> split <;> rfl

/-- C2, at the failing input: with no override (0) a validator that comes in
with a balance of 32 ETH, whose clamping is 32 ETH, is stored by `setupState`
with balance 0 and effective balance 0. -/
theorem setupState_no_override_drops_balance :
    sampleValidator.Balance = 32000000000 ∧
    clampEffectiveBalance sampleSpec sampleValidator.Balance = 32000000000 ∧
    (setupState sampleWorld sampleSpec (NewBeaconStateView StateVariant.deneb) 1000 777
        [sampleValidator] 0).map
      (fun st => (st.balances, st.validators.map fun v => v.EffectiveBalance)) =
      .ok ([0], [0]) := by
  refine ⟨rfl, ?_, ?_⟩
  · decide
  · rfl

/-- C3: the fork `setupState` selects is a function of the variant alone; the
previous version of every variant but the oldest is the current version of
the variant right before it, the oldest has `GENESIS_FORK_VERSION` twice, the
epoch is always `GENESIS_EPOCH`, and a successful `setupState` stores exactly
this fork. -/
theorem genesisFork_linear (spec : Spec) :
    (∀ v : StateVariant,
      match v.predecessor with
      | some p => (genesisFork spec v).PreviousVersion = (genesisFork spec p).CurrentVersion
      | none => (genesisFork spec v).CurrentVersion = spec.GENESIS_FORK_VERSION ∧
          (genesisFork spec v).PreviousVersion = spec.GENESIS_FORK_VERSION) ∧
    (∀ v : StateVariant, (genesisFork spec v).Epoch = GENESIS_EPOCH) ∧
    (∀ (w : World) (st : BeaconState) (t : Timestamp) (hash : Root)
        (vs : List KickstartValidatorData) (eb : Gwei),
      match setupState w spec st t hash vs eb with
      | .ok st' => st'.fork = genesisFork spec st.variant
      | .error _ => True) := by
  refine ⟨?_, ?_, ?_⟩
  · intro v
    cases v <;> simp [StateVariant.predecessor, genesisFork, forkVersions]
  · intro v
    rfl
  · intro w st t hash vs eb
    split
    · rename_i st' h
      obtain ⟨vals, c, n, _, hst⟩ := setupState_ok h
      rw [hst]
    · trivial

/-! ## Facts about `Run` -/

/-- Once the spec, the genesis config and the block source are settled, `Run` is
the header stage followed by lines 229-271. -/
theorem Run_eq {w : World} {g : DenebGenesisCmd} {spec : Spec} {gen : Option Genesis}
    {locals : RunLocals}
    (hs : w.SpecOptionsSpec g.SpecOptions = .ok spec)
    (hg : loadEth1Genesis w g = .ok gen)
    (hl : loadEth1Block w g gen = .ok locals) :
    Run w g =
      match buildExecHeader w spec locals with
      | .error e => .error e
      | .ok locals' => finishRun w g spec (beaconGenesisTimestamp g spec gen) locals' := by
  unfold Run
  simp only [hs, hg, hl, orReturn, bind, Except.bind]
  cases buildExecHeader w spec locals <;> rfl

/-- The header stage succeeds only on a block that passes every check, and then
builds the header field by field from the block. -/
theorem buildExecHeader_ok {w : World} {spec : Spec} {locals locals' : RunLocals}
    (h : buildExecHeader w spec locals = .ok locals') :
    ∃ blk txsRoot blobGasUsed excessBlobGas baseFee,
      locals.eth1Block = some blk ∧
      blk.Extra.length ≤ MAX_EXTRA_DATA_BYTES ∧
      txsRootOf w spec blk = .ok txsRoot ∧
      blk.BlobGasUsed = some blobGasUsed ∧
      blk.ExcessBlobGas = some excessBlobGas ∧
      (FromBig blk.BaseFee).1 = some baseFee ∧
      locals' = { locals with
        eth1BlockHash := blk.Hash,
        execHeader := some
          { ParentHash := blk.ParentHash, FeeRecipient := blk.Coinbase, StateRoot := blk.Root,
            ReceiptsRoot := blk.ReceiptHash, LogsBloom := blk.Bloom,
            PrevRandao := locals.prevRandaoMix, BlockNumber := blk.NumberU64,
            GasLimit := blk.GasLimit, GasUsed := blk.GasUsed, Timestamp := blk.Time,
            ExtraData := blk.Extra, BaseFeePerGas := baseFee, BlockHash := blk.Hash,
            TransactionsRoot := txsRoot, WithdrawalsRoot := withdrawalsRootOf w spec blk,
            BlobGasUsed := blobGasUsed, ExcessBlobGas := excessBlobGas } } := by
  unfold buildExecHeader at h
  split at h
  · cases h
  · rename_i blk hblk
    simp only at h
    split at h
    · cases h
    · rename_i hlen
      split at h
      · cases h
      · rename_i txsRoot htx
        split at h
        · cases h
        · rename_i bu hbu
          split at h
          · cases h
          · rename_i ebg hebg
            split at h
            · cases h
            · rename_i bf hbf
              simp only [Except.ok.injEq] at h
              exact ⟨blk, txsRoot, bu, ebg, bf, hblk, by omega, htx, hbu, hebg, hbf, h.symm⟩

/-- The shape of the output of a finished run. -/
theorem Run_ok {w : World} {g : DenebGenesisCmd} {spec : Spec} {gen : Option Genesis}
    {locals : RunLocals} {out : RunOutput}
    (hs : w.SpecOptionsSpec g.SpecOptions = .ok spec)
    (hg : loadEth1Genesis w g = .ok gen)
    (hl : loadEth1Block w g gen = .ok locals)
    (h : Run w g = .ok out) :
    ∃ locals' hdr st,
      buildExecHeader w spec locals = .ok locals' ∧
      locals'.execHeader = some hdr ∧
      out.state = { st with latestExecutionPayloadHeader := hdr } ∧
      (∃ validators, setupState w spec (NewBeaconStateView StateVariant.deneb)
        (beaconGenesisTimestamp g spec gen) locals'.eth1BlockHash validators
        g.EffectiveBalance = .ok st) ∧
      w.Serialize out.state = .ok out.written := by
  rw [Run_eq hs hg hl] at h
  split at h
  · cases h
  · rename_i locals' hbuild
    obtain ⟨validators, st, hdr, _, hst, hhdr, hout, hser⟩ := finishRun_ok h
    exact ⟨locals', hdr, st, hbuild, hhdr, hout, ⟨validators, hst⟩, hser⟩

/-- The transaction loop returns transaction encoding errors only. -/
theorem encodeTransactions_error :
    ∀ (txs : List Transaction) (i : Nat) (e : GoError),
      encodeTransactions i txs = .error e → ∃ j err, e = .failedToEncodeTx j err := by
  intro txs
  induction txs with
  | nil => intro i e h; simp [encodeTransactions] at h
  | cons tx rest ih =>
    intro i e h
    simp only [encodeTransactions] at h
    split at h
    · rename_i err _
      cases h
      exact ⟨i, err, rfl⟩
    · split at h
      · rename_i err herr
        simp only [Except.error.injEq] at h
        subst h
        exact ih _ _ herr
      · cases h

/-- The value of `txsRoot` fails with transaction encoding errors only. -/
theorem txsRootOf_error {w : World} {spec : Spec} {blk : Block} {e : GoError}
    (h : txsRootOf w spec blk = .error e) : ∃ j err, e = .failedToEncodeTx j err := by
  unfold txsRootOf at h
  split at h
  · split at h
    · rename_i err henc
      simp only [Except.error.injEq] at h
      subst h
      exact encodeTransactions_error _ _ _ henc
    · cases h
  · cases h

/-- On a block that lacks one of the two blob fields the header stage fails,
and with one of the block check errors. -/
theorem buildExecHeader_lacking (w : World) (spec : Spec) {locals : RunLocals} {blk : Block}
    (hb : locals.eth1Block = some blk)
    (hmiss : blk.BlobGasUsed = none ∨ blk.ExcessBlobGas = none) :
    ∃ e, buildExecHeader w spec locals = .error e ∧ e.isBlockCheck = true := by
  simp only [buildExecHeader, hb]
  split
  · exact ⟨_, rfl, rfl⟩
  · split
    · rename_i err htx
      obtain ⟨j, err', rfl⟩ := txsRootOf_error htx
      exact ⟨_, rfl, rfl⟩
    · split
      · exact ⟨_, rfl, rfl⟩
      · rename_i bu hbu
        split
        · exact ⟨_, rfl, rfl⟩
        · rename_i ebg hebg
          rcases hmiss with h | h
          · rw [h] at hbu; cases hbu
          · rw [h] at hebg; cases hebg

/-- C4: for the block `Run` has obtained, `Run` fails with the extra-data
error, carrying the length and the maximum, when the extra-data is longer
than `MAX_EXTRA_DATA_BYTES` (so at the maximum plus one), and does not fail
with it when the length is at most the maximum (so exactly at the maximum):
the check rejects if and only if the length exceeds the maximum. -/
theorem Run_extraData_check (w : World) (g : DenebGenesisCmd) (spec : Spec)
    (gen : Option Genesis) (locals : RunLocals) (blk : Block)
    (hs : w.SpecOptionsSpec g.SpecOptions = .ok spec)
    (hg : loadEth1Genesis w g = .ok gen)
    (hl : loadEth1Block w g gen = .ok locals)
    (hb : locals.eth1Block = some blk) :
    (MAX_EXTRA_DATA_BYTES < blk.Extra.length →
      Run w g = .error (.extraDataTooLong blk.Extra.length MAX_EXTRA_DATA_BYTES)) ∧
    (blk.Extra.length ≤ MAX_EXTRA_DATA_BYTES →
      ∀ n m, Run w g ≠ .error (.extraDataTooLong n m)) ∧
    ((∃ n m, Run w g = .error (.extraDataTooLong n m)) ↔
      MAX_EXTRA_DATA_BYTES < blk.Extra.length) := by
  have hlong : MAX_EXTRA_DATA_BYTES < blk.Extra.length →
      Run w g = .error (.extraDataTooLong blk.Extra.length MAX_EXTRA_DATA_BYTES) := by
    intro hlen
    rw [Run_eq hs hg hl]
    simp only [buildExecHeader, hb]
    rw [if_pos hlen]
  have hshort : blk.Extra.length ≤ MAX_EXTRA_DATA_BYTES →
      ∀ n m, Run w g ≠ .error (.extraDataTooLong n m) := by
    intro hlen n m hrun
    rw [Run_eq hs hg hl] at hrun
    split at hrun
    · rename_i e hbuild
      simp only [Except.error.injEq] at hrun
      subst hrun
      simp only [buildExecHeader, hb] at hbuild
      rw [if_neg (by omega)] at hbuild
      split at hbuild
      · rename_i err htx
        simp only [Except.error.injEq] at hbuild
        subst hbuild
        obtain ⟨j, err', hj⟩ := txsRootOf_error htx
        cases hj
      · split at hbuild
        · cases hbuild
        · split at hbuild
          · cases hbuild
          · split at hbuild
            · cases hbuild
            · cases hbuild
    · have := finishRun_error hrun
      simp [GoError.isBlockCheck] at this
  refine ⟨hlong, hshort, ?_⟩
  constructor
  · rintro ⟨n, m, hrun⟩
    by_contra hlen
    exact hshort (by omega) n m hrun
  · intro hlen
    exact ⟨_, _, hlong hlen⟩

/-- A witness for C4: a captured block with 33 bytes of extra-data is
rejected, one with exactly 32 bytes is not. -/
theorem Run_extraData_check_witness :
    Run (worldWithFileBlock { sampleBlock with Extra := List.replicate 33 0 }) fileCmd =
      .error (.extraDataTooLong 33 32) ∧
    ∀ n m, Run (worldWithFileBlock { sampleBlock with Extra := List.replicate 32 0 }) fileCmd ≠
      .error (.extraDataTooLong n m) :=
  ⟨(Run_extraData_check (worldWithFileBlock { sampleBlock with Extra := List.replicate 33 0 })
      fileCmd sampleSpec _ _ { sampleBlock with Extra := List.replicate 33 0 }
      rfl rfl rfl rfl).1 (by decide),
   (Run_extraData_check (worldWithFileBlock { sampleBlock with Extra := List.replicate 32 0 })
      fileCmd sampleSpec _ _ { sampleBlock with Extra := List.replicate 32 0 }
      rfl rfl rfl rfl).2.1 (by decide)⟩

/-- C5, as stated, fails: a captured block that lacks blob-gas-used and has 33
bytes of extra-data makes `Run` return the extra-data error, which names no
missing field. -/
theorem extraData_error_hides_missing_blob_field :
    ({ sampleBlock with Extra := List.replicate 33 0, BlobGasUsed := none } : Block).BlobGasUsed
      = none ∧
    Run (worldWithFileBlock { sampleBlock with Extra := List.replicate 33 0, BlobGasUsed := none })
      fileCmd = .error (.extraDataTooLong 33 32) ∧
    Run (worldWithFileBlock { sampleBlock with Extra := List.replicate 33 0, BlobGasUsed := none })
      fileCmd ≠ .error .missingBlobGasUsed ∧
    Run (worldWithFileBlock { sampleBlock with Extra := List.replicate 33 0, BlobGasUsed := none })
      fileCmd ≠ .error .missingExcessBlobGas := by
  refine ⟨rfl, rfl, ?_, ?_⟩ <;> decide

/-- C5, amended: for the block `Run` has obtained, if it lacks blob-gas-used
or excess-blob-gas then no header is built and `Run` returns an error, one of
the block check errors; when the extra-data is within the maximum and the
transactions encode, that error names the missing field (blob-gas-used
first); and a header that is built carries exactly the values of the two
fields that the block has. -/
theorem Run_missing_blob_field (w : World) (g : DenebGenesisCmd) (spec : Spec)
    (gen : Option Genesis) (locals : RunLocals) (blk : Block)
    (hs : w.SpecOptionsSpec g.SpecOptions = .ok spec)
    (hg : loadEth1Genesis w g = .ok gen)
    (hl : loadEth1Block w g gen = .ok locals)
    (hb : locals.eth1Block = some blk) :
    ((blk.BlobGasUsed = none ∨ blk.ExcessBlobGas = none) →
      ∃ e, buildExecHeader w spec locals = .error e ∧ Run w g = .error e ∧
        e.isBlockCheck = true) ∧
    (blk.Extra.length ≤ MAX_EXTRA_DATA_BYTES → (∃ r, txsRootOf w spec blk = .ok r) →
      blk.BlobGasUsed = none → Run w g = .error .missingBlobGasUsed) ∧
    (blk.Extra.length ≤ MAX_EXTRA_DATA_BYTES → (∃ r, txsRootOf w spec blk = .ok r) →
      blk.BlobGasUsed ≠ none → blk.ExcessBlobGas = none →
      Run w g = .error .missingExcessBlobGas) ∧
    (∀ locals' hdr, buildExecHeader w spec locals = .ok locals' →
      locals'.execHeader = some hdr →
      blk.BlobGasUsed = some hdr.BlobGasUsed ∧ blk.ExcessBlobGas = some hdr.ExcessBlobGas) ∧
    (∀ out, Run w g = .ok out →
      blk.BlobGasUsed = some out.state.latestExecutionPayloadHeader.BlobGasUsed ∧
      blk.ExcessBlobGas = some out.state.latestExecutionPayloadHeader.ExcessBlobGas) := by
  have hbuilt : ∀ locals' hdr, buildExecHeader w spec locals = .ok locals' →
      locals'.execHeader = some hdr →
      blk.BlobGasUsed = some hdr.BlobGasUsed ∧ blk.ExcessBlobGas = some hdr.ExcessBlobGas := by
    intro locals' hdr hbuild hhdr
    obtain ⟨blk', txsRoot, bu, ebg, bf, hblk, _, _, hbu, hebg, _, hl'⟩ :=
      buildExecHeader_ok hbuild
    rw [hb] at hblk
    cases hblk
    subst hl'
    simp only [Option.some.injEq] at hhdr
    subst hhdr
    exact ⟨hbu, hebg⟩
  refine ⟨?_, ?_, ?_, hbuilt, ?_⟩
  · intro hmiss
    obtain ⟨e, hbuild, hkind⟩ := buildExecHeader_lacking w spec hb hmiss
    refine ⟨e, hbuild, ?_, hkind⟩
    rw [Run_eq hs hg hl, hbuild]
  · rintro hlen ⟨r, hr⟩ hbu
    rw [Run_eq hs hg hl]
    simp only [buildExecHeader, hb, hr, hbu]
    rw [if_neg (by omega)]
  · rintro hlen ⟨r, hr⟩ hbu hebg
    rw [Run_eq hs hg hl]
    obtain ⟨bu, hbu'⟩ := Option.ne_none_iff_exists'.mp hbu
    simp only [buildExecHeader, hb, hr, hbu', hebg]
    rw [if_neg (by omega)]
  · intro out hrun
    obtain ⟨locals', hdr, st, hbuild, hhdr, hout, _, _⟩ := Run_ok hs hg hl hrun
    rw [hout]
    exact hbuilt locals' hdr hbuild hhdr

/-- A witness for the amended C5: a captured block without blob-gas-used,
then one without excess-blob-gas. -/
theorem Run_missing_blob_field_witness :
    Run (worldWithFileBlock { sampleBlock with BlobGasUsed := none }) fileCmd =
      .error .missingBlobGasUsed ∧
    Run (worldWithFileBlock { sampleBlock with ExcessBlobGas := none }) fileCmd =
      .error .missingExcessBlobGas :=
  ⟨(Run_missing_blob_field (worldWithFileBlock { sampleBlock with BlobGasUsed := none })
      fileCmd sampleSpec _ _ { sampleBlock with BlobGasUsed := none }
      rfl rfl rfl rfl).2.1 (by decide) ⟨_, rfl⟩ rfl,
   (Run_missing_blob_field (worldWithFileBlock { sampleBlock with ExcessBlobGas := none })
      fileCmd sampleSpec _ _ { sampleBlock with ExcessBlobGas := none }
      rfl rfl rfl rfl).2.2.1 (by decide) ⟨_, rfl⟩ (by decide) rfl⟩

/-- C6: for the block `Run` has obtained and the header built from it, the
withdrawals root is the hash-tree-root of the block's withdrawals converted
one by one, in order and in the same number, to (index, validator index,
address, amount) records when the block has a withdrawals list, empty or not;
it is the zero root when the block has none, and, the hash-tree-root never
being the zero root, only then.  The state of a finished run carries this
header. -/
theorem Run_withdrawalsRoot (w : World) (g : DenebGenesisCmd) (spec : Spec)
    (gen : Option Genesis) (locals locals' : RunLocals) (blk : Block)
    (hs : w.SpecOptionsSpec g.SpecOptions = .ok spec)
    (hg : loadEth1Genesis w g = .ok gen)
    (hl : loadEth1Block w g gen = .ok locals)
    (hb : locals.eth1Block = some blk)
    (hbuild : buildExecHeader w spec locals = .ok locals') :
    ∃ hdr, locals'.execHeader = some hdr ∧
      (∀ ws : List ELWithdrawal, blk.Withdrawals = some ws →
        ∃ records : List Withdrawal,
          hdr.WithdrawalsRoot = w.withdrawalsHTR spec records ∧
          records.length = ws.length ∧
          ∀ i : Nat, records[i]? = (ws[i]?).map fun (x : ELWithdrawal) =>
            ({ Index := x.Index, ValidatorIndex := x.Validator, Address := x.Address,
               Amount := x.Amount } : Withdrawal)) ∧
      (blk.Withdrawals = none → hdr.WithdrawalsRoot = 0) ∧
      ((∀ records, w.withdrawalsHTR spec records ≠ 0) →
        (hdr.WithdrawalsRoot = 0 ↔ blk.Withdrawals = none)) ∧
      (∀ out, Run w g = .ok out → out.state.latestExecutionPayloadHeader = hdr) := by
  obtain ⟨blk', txsRoot, bu, ebg, bf, hblk, _, _, _, _, _, hl'⟩ := buildExecHeader_ok hbuild
  rw [hb] at hblk
  cases hblk
  subst hl'
  refine ⟨_, rfl, ?_, ?_, ?_, ?_⟩
  · intro ws hws
    refine ⟨ws.map toCLWithdrawal, ?_, by simp, ?_⟩
    · simp only [withdrawalsRootOf, hws]
    · intro i
      simp only [List.getElem?_map]
      rfl
  · intro hnone
    simp only [withdrawalsRootOf, hnone]
  · intro hnz
    simp only [withdrawalsRootOf]
    cases hws : blk.Withdrawals with
    | none => simp
    | some ws => simpa using hnz (ws.map toCLWithdrawal)
  · intro out hrun
    obtain ⟨locals'', hdr, st, hbuild', hhdr, hout, _, _⟩ := Run_ok hs hg hl hrun
    rw [hbuild] at hbuild'
    cases hbuild'
    simp only [Option.some.injEq] at hhdr
    rw [hout, ← hhdr]

/-- A witness for C6: a captured block with three withdrawals. -/
theorem Run_withdrawalsRoot_witness :
    ∃ hdr : ExecutionPayloadHeader,
      (∃ records : List Withdrawal,
        hdr.WithdrawalsRoot = sampleWorld.withdrawalsHTR sampleSpec records ∧
        records.length = 3 ∧
        ∀ i : Nat, records[i]? = (threeWithdrawals[i]?).map fun (x : ELWithdrawal) =>
          ({ Index := x.Index, ValidatorIndex := x.Validator, Address := x.Address,
             Amount := x.Amount } : Withdrawal)) ∧
      hdr.WithdrawalsRoot ≠ 0 ∧
      (∃ out, Run (worldWithFileBlock { sampleBlock with Withdrawals := some threeWithdrawals })
        fileCmd = .ok out) ∧
      ∀ out, Run (worldWithFileBlock { sampleBlock with Withdrawals := some threeWithdrawals })
        fileCmd = .ok out → out.state.latestExecutionPayloadHeader = hdr := by
  obtain ⟨hdr, _, hsome, _, hiff, hout⟩ :=
    Run_withdrawalsRoot (worldWithFileBlock { sampleBlock with Withdrawals := some threeWithdrawals })
      fileCmd sampleSpec _ _ _ { sampleBlock with Withdrawals := some threeWithdrawals }
      rfl rfl rfl rfl rfl
  refine ⟨hdr, hsome threeWithdrawals rfl, ?_, ⟨_, rfl⟩, hout⟩
  intro h0
  have hnz : ∀ records, (worldWithFileBlock
      { sampleBlock with Withdrawals := some threeWithdrawals }).withdrawalsHTR sampleSpec records
      ≠ 0 := by
    intro records
    show 1 + (records.map fun (x : Withdrawal) => x.Amount).sum ≠ 0
    exact Nat.ne_of_gt (Nat.lt_of_lt_of_le Nat.zero_lt_one (Nat.le_add_right 1 _))
  have := (hiff hnz).mp h0
  cases this

/-- With no block source at all, `Run` takes the fallback branch and then panics
on the nil block, for every world in which the spec loads. -/
theorem Run_fallback_panics (w : World) (g : DenebGenesisCmd) (spec : Spec)
    (hs : w.SpecOptionsSpec g.SpecOptions = .ok spec)
    (hfile : g.ShadowForkBlockFile = "") (hrpc : g.ShadowForkEth1RPC = "")
    (hconf : g.Eth1Config = "") :
    loadEth1Block w g none =
      .ok { eth1BlockHash := g.Eth1BlockHash, execHeader := some ExecutionPayloadHeader.empty,
            eth1Block := none, prevRandaoMix := 0 } ∧
    Run w g = .error (.panic "invalid memory address or nil pointer dereference") := by
  have hg : loadEth1Genesis w g = .ok none := by
    simp [loadEth1Genesis, hconf]
  have hl : loadEth1Block w g none =
      .ok { eth1BlockHash := g.Eth1BlockHash, execHeader := some ExecutionPayloadHeader.empty,
            eth1Block := none, prevRandaoMix := 0 } := by
    simp [loadEth1Block, hfile, hrpc, hconf]
  refine ⟨hl, ?_⟩
  rw [Run_eq hs hg hl]
  rfl

/-- C7, at the failing input: with no captured-block file, no RPC endpoint and
no eth1 genesis config, `Run` sets the block hash and the empty header and
then panics on the nil block; it returns no state. -/
theorem Run_fallback_nil_block :
    fallbackCmd.ShadowForkBlockFile = "" ∧ fallbackCmd.ShadowForkEth1RPC = "" ∧
    fallbackCmd.Eth1Config = "" ∧
    loadEth1Block sampleWorld fallbackCmd none =
      .ok { eth1BlockHash := 4242, execHeader := some ExecutionPayloadHeader.empty,
            eth1Block := none, prevRandaoMix := 0 } ∧
    Run sampleWorld fallbackCmd =
      .error (.panic "invalid memory address or nil pointer dereference") := by
  refine ⟨rfl, rfl, rfl, rfl, rfl⟩

/-- A finished run has loaded the spec, settled the genesis config and found
a block source. -/
theorem Run_ok_stages {w : World} {g : DenebGenesisCmd} {out : RunOutput}
    (h : Run w g = .ok out) :
    ∃ spec gen locals,
      w.SpecOptionsSpec g.SpecOptions = .ok spec ∧
      loadEth1Genesis w g = .ok gen ∧
      loadEth1Block w g gen = .ok locals := by
  unfold Run at h
  simp only [bind, Except.bind] at h
  split at h
  · cases h
  · rename_i spec hspec
    split at h
    · cases h
    · rename_i gen hgen
      split at h
      · cases h
      · rename_i locals hlocals
        refine ⟨spec, gen, locals, ?_, hgen, hlocals⟩
        unfold orReturn at hspec
        split at hspec
        · rename_i a ha
          simp only [Except.ok.injEq] at hspec
          rw [ha, hspec]
        · cases hspec

/-- What the code stores with the flag set and an eth1 genesis config loaded:
the execution-layer genesis timestamp plus `GENESIS_DELAY`, modulo `2^64`,
whatever `MIN_GENESIS_TIME` and the `--timestamp` option are.  The flag
chooses the time handed to `setupState`, and `setupState` adds the delay. -/
theorem Run_match_genesis_time_stored (w : World) (g : DenebGenesisCmd) (spec : Spec)
    (gen : Genesis) (out : RunOutput)
    (hs : w.SpecOptionsSpec g.SpecOptions = .ok spec)
    (hflag : g.EthMatchGenesisTime = true)
    (hg : loadEth1Genesis w g = .ok (some gen))
    (h : Run w g = .ok out) :
    out.state.genesisTime = (gen.Timestamp + spec.GENESIS_DELAY) % U64 := by
  obtain ⟨spec', gen', locals, hs', hg', hl⟩ := Run_ok_stages h
  rw [hs] at hs'
  rw [hg] at hg'
  cases hs'
  cases hg'
  obtain ⟨locals', hdr, st, _, _, hout, ⟨validators, hst⟩, _⟩ := Run_ok hs hg hl h
  obtain ⟨vals, c, n, _, hst'⟩ := setupState_ok hst
  rw [hout, hst']
  simp only [beaconGenesisTimestamp, hflag]

/-- C8, at the failing input: with the flag `--eth1-match-genesis-time` set, an
eth1 genesis config with timestamp 1000 loaded and a `GENESIS_DELAY` of 60,
the state of the finished run has genesis time 1060, not the execution-layer
genesis time 1000 that the help text of the flag promises. -/
theorem matchGenesisTime_adds_delay :
    matchTimeCmd.EthMatchGenesisTime = true ∧
    loadEth1Genesis sampleWorld matchTimeCmd =
      .ok (some { Timestamp := 1000, ToBlock := sampleBlock }) ∧
    sampleSpec.GENESIS_DELAY = 60 ∧
    (Run sampleWorld matchTimeCmd).map (fun out => out.state.genesisTime) = .ok 1060 ∧
    (Run sampleWorld matchTimeCmd).map (fun out => out.state.genesisTime) ≠ .ok 1000 := by
  refine ⟨rfl, rfl, rfl, rfl, by decide⟩

/-- On the RPC path the errors of `Dial` and of `BlockByNumber` are returned,
wrapped. -/
theorem Run_rpc_errors (w : World) (g : DenebGenesisCmd) (spec : Spec) (gen : Option Genesis)
    (hs : w.SpecOptionsSpec g.SpecOptions = .ok spec)
    (hg : loadEth1Genesis w g = .ok gen)
    (hfile : g.ShadowForkBlockFile = "") (hrpc : g.ShadowForkEth1RPC ≠ "") :
    (∀ e, w.Dial g.ShadowForkEth1RPC = .error e → Run w g = .error (.creatingETHClient e)) ∧
    (∀ client e, w.Dial g.ShadowForkEth1RPC = .ok client →
      w.BlockByNumber client (w.BlockNumber client).1 = .error e →
      Run w g = .error (.gettingETHBlock e)) := by
  constructor
  · intro e hd
    unfold Run
    simp [hs, hg, orReturn, bind, Except.bind, loadEth1Block, hfile, hrpc, hd, orWrap]
  · intro client e hd hb
    unfold Run
    simp [hs, hg, orReturn, bind, Except.bind, loadEth1Block, hfile, hrpc, hd, hb, orWrap]

/-- C9, at the failing input: the endpoint answers the connection and the
block fetch but `BlockNumber` returns an error; `Run` does not return it, it
fetches block 0, builds the header from it and serializes the state. -/
theorem Run_discards_BlockNumber_error :
    rpcCmd.ShadowForkBlockFile = "" ∧ rpcCmd.ShadowForkEth1RPC ≠ "" ∧
    worldBlockNumberFails.Dial rpcCmd.ShadowForkEth1RPC = .ok 1 ∧
    worldBlockNumberFails.BlockNumber 1 = (0, some "connection reset") ∧
    worldBlockNumberFails.BlockByNumber 1 0 = .ok sampleBlock ∧
    (Run worldBlockNumberFails rpcCmd).map
      (fun out => (out.state.latestExecutionPayloadHeader.BlockHash, out.written)) =
      .ok (sampleBlock.Hash, [65, 1]) := by
  refine ⟨rfl, by decide, rfl, rfl, rfl, rfl⟩

/-- The conversion of an integer from `2^256` on reports overflow and gives
a different value. -/
theorem FromBig_overflow (b : Int) (h : (U256 : Int) ≤ b) :
    ∃ v : Nat, FromBig (some b) = (some v, true) ∧ (v : Int) < (U256 : Int) ∧ (v : Int) ≠ b := by
  have hpos : (0 : Int) < (U256 : Int) := by
    have : (0 : Nat) < U256 := by decide
    exact_mod_cast this
  have hnn : 0 ≤ b % (U256 : Int) := Int.emod_nonneg _ (by omega)
  have hlt : b % (U256 : Int) < (U256 : Int) := Int.emod_lt_of_pos _ hpos
  have habs : U256 ≤ b.natAbs := by omega
  refine ⟨(b % (U256 : Int)).toNat, ?_, ?_, ?_⟩
  · simp [FromBig, habs]
  · rw [Int.toNat_of_nonneg hnn]; exact hlt
  · rw [Int.toNat_of_nonneg hnn]; omega

end Eth2TestnetGenesis
